import Mathlib

/-!
Verification of `sqleaner`'s formatting engine (`src/sqleaner/format.py`).

The AST mirrors the node shape of the external `sqlglot` library as used by
the formatter: every node has a class name (`kind`), an optional leaf payload
(`text`, e.g. an identifier's name), and named arguments each holding either a
single child node or a list of child nodes.  `Expr.dfs` mirrors
`sqlglot.expressions.Expression.dfs`, which yields `(node, parent, arg_key)`
triples, the node itself first, then its children in argument order.
`Expr.render` models the library's node-to-text serializer (`Expression.sql`)
on the node shapes exercised here.  The formatter itself (`_format_select`,
`ExpressionVisitor`, `format_sql`, `check_all_of_type`) is translated
line-by-line from `format.py`; the external parser is passed to `format_sql`
as an explicit function argument.
-/

mutual

inductive Expr where
  | mk (kind : String) (text : String) (args : Args)

inductive Args where
  | nil : Args
  | one (key : String) (value : Expr) (rest : Args) : Args
  | many (key : String) (values : Exprs) (rest : Args) : Args

inductive Exprs where
  | nil : Exprs
  | cons (head : Expr) (tail : Exprs) : Exprs

end

deriving instance DecidableEq for Expr, Args, Exprs

def Exprs.toList : Exprs → List Expr
  | .nil => []
  | .cons e es => e :: es.toList

/-- The value stored under one argument key: a single node or a list of nodes
(mirroring `sqlglot` arg values, which are either an `Expression` or a
`list[Expression]`). -/
inductive ArgVal where
  | one (e : Expr)
  | many (es : List Expr)
deriving DecidableEq

/-- `args.get(key)` of the Python dict: the value stored under `key`. -/
def Args.get : Args → String → Option ArgVal
  | .nil, _ => none
  | .one k v rest, key => if k = key then some (.one v) else rest.get key
  | .many k vs rest, key => if k = key then some (.many vs.toList) else rest.get key

def Args.hasKey (a : Args) (key : String) : Bool := (a.get key).isSome

def Expr.kind : Expr → String
  | .mk k _ _ => k

def Expr.text : Expr → String
  | .mk _ t _ => t

def Expr.args : Expr → Args
  | .mk _ _ a => a

/-- One entry yielded by the depth-first walk: `(node, parent, arg key)`. -/
abbrev DfsEntry := Expr × Option Expr × Option String

mutual

/-- `Expression.dfs` of the external library: yield the node itself (with the
parent and the key it was reached under), then recurse into every child, in
argument order. -/
def Expr.dfs : Expr → Option Expr → Option String → List DfsEntry
  | e@(.mk _ _ as), p, k => (e, p, k) :: Args.dfsChildren as e

def Args.dfsChildren : Args → Expr → List DfsEntry
  | .nil, _ => []
  | .one k c rest, parent => c.dfs (some parent) (some k) ++ rest.dfsChildren parent
  | .many k cs rest, parent => Exprs.dfsAll cs parent k ++ rest.dfsChildren parent

def Exprs.dfsAll : Exprs → Expr → String → List DfsEntry
  | .nil, _, _ => []
  | .cons c cs, parent, k => c.dfs (some parent) (some k) ++ Exprs.dfsAll cs parent k

end

mutual

/-- Model of the external library's serializer `Expression.sql()` on the node
shapes appearing in this development; unknown kinds fall back to the node's
stored source text. -/
def Expr.render : Expr → String
  | .mk kind txt as =>
    if kind = "Identifier" then txt
    else if kind = "Star" then "*"
    else if kind = "Column" then
      (if as.hasKey "table" then Args.renderOne as "table" ++ "." else "")
        ++ Args.renderOne as "this"
    else if kind = "Table" then Args.renderOne as "this"
    else if kind = "TableAlias" then Args.renderOne as "this"
    else if kind = "From" then
      "FROM " ++ String.intercalate ", " (Args.renderMany as "expressions")
    else if kind = "Join" then
      "JOIN " ++ Args.renderOne as "this"
        ++ (if as.hasKey "on" then " ON " ++ Args.renderOne as "on" else "")
    else if kind = "EQ" then
      Args.renderOne as "this" ++ " = " ++ Args.renderOne as "expression"
    else if kind = "With" then
      "WITH " ++ String.intercalate ", " (Args.renderMany as "expressions")
    else if kind = "CTE" then
      Args.renderOne as "alias" ++ " AS (" ++ Args.renderOne as "this" ++ ")"
    else if kind = "Select" then
      (if as.hasKey "with" then Args.renderOne as "with" ++ " " else "")
        ++ "SELECT " ++ String.intercalate ", " (Args.renderMany as "expressions")
        ++ (if as.hasKey "from" then " " ++ Args.renderOne as "from" else "")
        ++ String.join ((Args.renderMany as "joins").map (fun j => " " ++ j))
    else txt

/-- Rendered text of the single node stored under `key` (empty if absent). -/
def Args.renderOne : Args → String → String
  | .nil, _ => ""
  | .one k v rest, key => if k = key then v.render else rest.renderOne key
  | .many _ _ rest, key => rest.renderOne key

/-- Rendered texts of the node list stored under `key` (empty if absent). -/
def Args.renderMany : Args → String → List String
  | .nil, _ => []
  | .one _ _ rest, key => rest.renderMany key
  | .many k vs rest, key => if k = key then Exprs.renderAll vs else rest.renderMany key

def Exprs.renderAll : Exprs → List String
  | .nil => []
  | .cons e es => e.render :: es.renderAll

end

/-- `Select.selects` of the external library: the projection list stored under
the `expressions` arg (empty when absent). -/
def Expr.selects (e : Expr) : List Expr :=
  match e.args.get "expressions" with
  | some (.many es) => es
  | _ => []

/-- `Select.named_selects`: one output name per projection.  Only its length
is consumed by the formatter. -/
def Expr.named_selects (e : Expr) : List String := e.selects.map Expr.render

/-- The raw arg keys accepted by `ExpressionKey` (`format.py` lines 34-61):
`expressions`, `expression`, `None`, `table`, `this`, `from`, `alias`,
`joins`, `with`, `on`. -/
def validRawKeys : List (Option String) :=
  [some "expressions", some "expression", none, some "table", some "this",
   some "from", some "alias", some "joins", some "with", some "on"]

def isValidKey (k : Option String) : Bool := decide (k ∈ validRawKeys)

/-- Message of the `RuntimeError` raised when `ExpressionKey(raw_key)` fails:
`f"{raw_key} is not a valid ExpressionKey"` (Python renders `None` as the
string `None`). -/
def keyErrorMsg (k : Option String) : String :=
  (match k with | none => "None" | some s => s) ++ " is not a valid ExpressionKey"

/-- `check_all_of_type(iterable, t)`: `isinstance` against class `t` is
modelled by comparing the node's class name. -/
def check_all_of_type (iterable : List Expr) (t : String) : Bool :=
  iterable.all (fun item => item.kind = t)

/-- The `SELECT` keyword and projection-list block of `_format_select`
(`format.py` lines 211-222): `"SELECT"`, a space for a single-column select,
a newline plus indent for a multi-column select, then the per-column rendered
texts joined by `col_sep`. -/
def selectColsPart (exp : Expr) (col_sep indentation_chars : String) : String :=
  (("SELECT" ++ (if exp.named_selects.length = 1 then " " else ""))
    ++ (if 1 < exp.named_selects.length then "\n" ++ indentation_chars else ""))
    ++ String.intercalate col_sep (exp.selects.map Expr.render)

/-- The `FROM` block of `_format_select` (lines 224-228): if the `from` arg
holds a node that `isinstance`-checks as `From`, a newline plus its own
rendered text; otherwise nothing (a list-valued arg fails `isinstance`). -/
def fromPart (exp : Expr) : String :=
  match exp.args.get "from" with
  | some (.one f) => if f.kind = "From" then "\n" ++ f.render else ""
  | _ => ""

/-- The join block of `_format_select` (lines 230-238): if the `joins` arg is
present and every entry passes `check_all_of_type(_, Join)`, a newline plus
the joins' rendered texts joined by `"\n"`; otherwise nothing.  (`sqlglot`
always stores `joins` as a list, so a single-node arg cannot arise from the
parser.) -/
def joinsPart (exp : Expr) : String :=
  match exp.args.get "joins" with
  | some (.many js) =>
    if check_all_of_type js "Join"
    then "\n" ++ String.intercalate "\n" (js.map Expr.render)
    else ""
  | _ => ""

/-- `_format_select(exp, col_sep, indentation_chars)` (`format.py` lines
197-240): the sequential `+=` accumulation of the select block, the `FROM`
block and the join block. -/
def _format_select (exp : Expr) (col_sep indentation_chars : String) : String :=
  selectColsPart exp col_sep indentation_chars ++ fromPart exp ++ joinsPart exp

/-- The visitor state of `ExpressionVisitor.__init__`. -/
structure ExpressionVisitor where
  col_sep : String
  indent_chars : String
  visited_nodes : List Expr

/-- `ExpressionVisitor._skip_node`: skip a node already in `visited_nodes`
(Python `in` compares by the library's structural node equality). -/
def _skip_node (v : ExpressionVisitor) (node : Expr) : Bool :=
  decide (node ∈ v.visited_nodes)

/-- The `logger.warning` text emitted by `route_expression`'s fallback branch
(Python's `%s` of a node prints its SQL text). -/
def fallbackWarning (e : Expr) : String :=
  "Expression handling not implemented: " ++ e.render
    ++ ". Falling back to default formatting"

/-- `ExpressionVisitor.route_expression`: a `Select` goes through
`_format_select`; every other kind falls back to the node's own `sql()` text
and logs one warning (returned here as the second component). -/
def route_expression (v : ExpressionVisitor) (exp : Expr) : String × List String :=
  if exp.kind = "Select"
  then (_format_select exp v.col_sep v.indent_chars, [])
  else (exp.render, [fallbackWarning exp])

/-- `ExpressionVisitor.visit_expression`: return `""` for an already-visited
node; otherwise route the node and record its whole subtree (the nodes of
`exp.dfs()`) as visited. -/
def visit_expression (v : ExpressionVisitor) (exp : Expr) :
    String × ExpressionVisitor × List String :=
  if _skip_node v exp then ("", v, [])
  else
    let routed := route_expression v exp
    (routed.1,
     { v with visited_nodes :=
         v.visited_nodes ++ (exp.dfs none none).map (fun x => x.1) },
     routed.2)

/-- The driver's inner `for node, parent_node, raw_key in exp.dfs()` loop
(`format.py` lines 139-153): validate each raw key against `ExpressionKey`
(the two `isinstance` guards on `node` and `parent_node` always pass in this
AST model), then accumulate `visit_expression`'s output.  Warnings logged
along the way are accumulated in the third component. -/
def dfs_loop (v : ExpressionVisitor) :
    List DfsEntry → Except String (String × ExpressionVisitor × List String)
  | [] => .ok ("", v, [])
  | (node, _parent_node, raw_key) :: rest =>
    if isValidKey raw_key then
      match visit_expression v node with
      | (s, v', w) =>
        match dfs_loop v' rest with
        | .ok (s', v'', w') => .ok (s ++ s', v'', w ++ w')
        | .error m => .error m
    else .error (keyErrorMsg raw_key)

/-- `indent_chars = " " * 4 * (indent_level + 1)` (`format.py` line 133). -/
def indent_chars_at (indent_level : Nat) : String :=
  String.mk (List.replicate (4 * (indent_level + 1)) ' ')

def base_col_sep : String := ","

/-- `col_sep = f"\n{indent_chars}{base_col_sep} "` (`format.py` line 134). -/
def col_sep_at (indent_level : Nat) : String :=
  "\n" ++ indent_chars_at indent_level ++ base_col_sep ++ " "

def expression_ending : String := "\n;"

/-- One iteration of the driver's statement loop (`format.py` lines 129-167):
run the dfs loop over the statement, append `expression_ending`, re-parse the
fragment, and check the re-parse yields exactly one statement structurally
equal to the original (Python's `exp != formatted_ast`, where a `None` entry
compares unequal to any node).  Returns the fragment plus the warnings the
visitor logged. -/
def format_one_statement (parse : String → List (Option Expr)) (exp : Expr) :
    Except String (String × List String) :=
  match dfs_loop ⟨col_sep_at 0, indent_chars_at 0, []⟩ (exp.dfs none none) with
  | .error m => .error m
  | .ok (txt, _, warns) =>
    let formatted_exp := txt ++ expression_ending
    match parse formatted_exp with
    | [formatted_ast] =>
      if some exp = formatted_ast
      then .ok (formatted_exp, warns)
      else .error "AST has changed post formatting"
    | _ => .error "Received multiple statements from parsing formatted AST"

/-- The driver's outer loop: skip `None` entries, format and verify each
statement, collect the fragments in order (fail-fast on the first error). -/
def format_statements (parse : String → List (Option Expr)) :
    List (Option Expr) → Except String (List String)
  | [] => .ok []
  | none :: rest => format_statements parse rest
  | some e :: rest =>
    match format_one_statement parse e with
    | .error m => .error m
    | .ok (frag, _) =>
      match format_statements parse rest with
      | .ok frags => .ok (frag :: frags)
      | .error m => .error m

/-- `format_sql(sql_str)` (`format.py` lines 123-177), with the external
parser (`_parse_statement`, a thin wrapper over `sqlglot`'s tokenizer and
parser) passed as an explicit argument: parse the document once, format every
statement, and join the fragments followed by one trailing newline. -/
def format_sql (parse : String → List (Option Expr)) (sql_str : String) :
    Except String String :=
  match format_statements parse (parse sql_str) with
  | .ok output => .ok (String.join output ++ "\n")
  | .error m => .error m

/-! ### Concrete ASTs

The statement trees the external parser produces for the concrete inputs
exercised by the spec's scenarios, written out as `Expr` values. -/

def identE (s : String) : Expr := .mk "Identifier" s .nil

def columnE (s : String) : Expr := .mk "Column" "" (.one "this" (identE s) .nil)

/-- A table-qualified column reference such as `t.id`. -/
def columnQ (t c : String) : Expr :=
  .mk "Column" "" (.one "this" (identE c) (.one "table" (identE t) .nil))

def tableE (s : String) : Expr := .mk "Table" "" (.one "this" (identE s) .nil)

def fromE (s : String) : Expr :=
  .mk "From" "" (.many "expressions" (.cons (tableE s) .nil) .nil)

def starE : Expr := .mk "Star" "" .nil

/-- AST of `select a from t`. -/
def astA : Expr :=
  .mk "Select" ""
    (.many "expressions" (.cons (columnE "a") .nil)
      (.one "from" (fromE "t") .nil))

/-- AST of `select a, b from t`. -/
def astAB : Expr :=
  .mk "Select" ""
    (.many "expressions" (.cons (columnE "a") (.cons (columnE "b") .nil))
      (.one "from" (fromE "t") .nil))

/-- AST of `select x from y` (the CTE body). -/
def astXY : Expr :=
  .mk "Select" ""
    (.many "expressions" (.cons (columnE "x") .nil)
      (.one "from" (fromE "y") .nil))

def tableAliasC : Expr := .mk "TableAlias" "" (.one "this" (identE "c") .nil)

def cteC : Expr := .mk "CTE" "" (.one "this" astXY (.one "alias" tableAliasC .nil))

def withC : Expr := .mk "With" "" (.many "expressions" (.cons cteC .nil) .nil)

/-- AST of `with c as (select x from y) select * from c`. -/
def astCte : Expr :=
  .mk "Select" ""
    (.one "with" withC
      (.many "expressions" (.cons starE .nil)
        (.one "from" (fromE "c") .nil)))

/-- AST of `select * from c` (what re-parsing the formatted CTE input yields,
the `WITH` clause having been dropped by the formatter). -/
def astStarC : Expr :=
  .mk "Select" ""
    (.many "expressions" (.cons starE .nil)
      (.one "from" (fromE "c") .nil))

def litOne : Expr := .mk "Literal" "1" .nil

def eqAOne : Expr :=
  .mk "EQ" "" (.one "this" (columnE "a") (.one "expression" litOne .nil))

def whereA : Expr := .mk "Where" "" (.one "this" eqAOne .nil)

/-- AST of `select a from t where a = 1`: the `Where` node hangs off the
`Select` under the arg key `where`, which `ExpressionKey` does not accept. -/
def astWhere : Expr :=
  .mk "Select" ""
    (.many "expressions" (.cons (columnE "a") .nil)
      (.one "from" (fromE "t")
        (.one "where" whereA .nil)))

/-- Join node of `join u on t.id = u.id`. -/
def joinU : Expr :=
  .mk "Join" ""
    (.one "this" (tableE "u")
      (.one "on"
        (.mk "EQ" ""
          (.one "this" (columnQ "t" "id")
            (.one "expression" (columnQ "u" "id") .nil))) .nil))

/-- AST of `select a from t join u on t.id = u.id`. -/
def astJoin : Expr :=
  .mk "Select" ""
    (.many "expressions" (.cons (columnE "a") .nil)
      (.one "from" (fromE "t")
        (.many "joins" (.cons joinU .nil) .nil)))

/-- A `Select` whose `joins` arg contains an entry that is not a join-shaped
node (the literal `1`), otherwise identical to `astA`. -/
def astBadJoin : Expr :=
  .mk "Select" ""
    (.many "expressions" (.cons (columnE "a") .nil)
      (.one "from" (fromE "t")
        (.many "joins" (.cons litOne .nil) .nil)))

def valuesOne : Expr :=
  .mk "Values" ""
    (.many "expressions"
      (.cons (.mk "Tuple" "" (.many "expressions" (.cons litOne .nil) .nil)) .nil) .nil)

/-- AST of `insert into t values (1)`, a statement kind the formatter has no
special handling for. -/
def astIns : Expr :=
  .mk "Insert" "INSERT INTO t VALUES (1)"
    (.one "this" (tableE "t") (.one "expression" valuesOne .nil))

/-- Model of the external `sqlglot` parser (`_parse_statement`, spec section 6
collaborator contract) at the concrete strings exercised in this development:
each listed source text maps to the statement list `sqlglot` produces for it;
everything else maps to the empty statement list. -/
def parse_model (s : String) : List (Option Expr) :=
  if s = "select a from t" then [some astA]
  else if s = "SELECT a\nFROM t\n;" then [some astA]
  else if s = "SELECT a\nFROM t" then [some astA]
  else if s = "select a from t;;" then [some astA, none]
  else if s = "select a, b from t" then [some astAB]
  else if s = "SELECT\n    a\n    , b\nFROM t\n;" then [some astAB]
  else if s = "with c as (select x from y) select * from c" then [some astCte]
  else if s = "SELECT *\nFROM c\n;" then [some astStarC]
  else if s = "select a from t where a = 1" then [some astWhere]
  else if s = "select a from t join u on t.id = u.id" then [some astJoin]
  else if s = "SELECT a\nFROM t\nJOIN u ON t.id = u.id\n;" then [some astJoin]
  else if s = "insert into t values (1)" then [some astIns]
  else if s = "INSERT INTO t VALUES (1)\n;" then [some astIns]
  else []

/-! ### Structural lemmas about the driver loop -/

theorem dfs_head (e : Expr) (p : Option Expr) (k : Option String) :
    ∃ rest, e.dfs p k = (e, p, k) :: rest := by
  cases e with
  | mk kk tt aa => exact ⟨_, rfl⟩

/-- A run of the driver loop in which every node is already recorded as
visited contributes no text and no warnings, and leaves the visitor state
unchanged. -/
theorem dfs_loop_skip_all (l : List DfsEntry) (v : ExpressionVisitor)
    (hkeys : ∀ x ∈ l, isValidKey x.2.2 = true)
    (hmem : ∀ x ∈ l, x.1 ∈ v.visited_nodes) :
    dfs_loop v l = .ok ("", v, []) := by
  induction l with
  | nil => rfl
  | cons hd tl ih =>
    obtain ⟨n, p, k⟩ := hd
    have hk : isValidKey k = true := hkeys _ (List.mem_cons_self _ _)
    have hn : n ∈ v.visited_nodes := hmem _ (List.mem_cons_self _ _)
    have hskip : _skip_node v n = true := by
      simp [_skip_node, hn]
    have htl : dfs_loop v tl = .ok ("", v, []) :=
      ih (fun x hx => hkeys x (List.mem_cons_of_mem _ hx))
         (fun x hx => hmem x (List.mem_cons_of_mem _ hx))
    simp [dfs_loop, hk, visit_expression, hskip, htl]

/-- Processing the depth-first node list of a statement from a fresh visitor:
the root is routed, everything below it is skipped, so the loop's text and
warnings are exactly those of `route_expression` on the root, and the final
visitor has recorded every node of the statement. -/
theorem dfs_loop_root (e : Expr) (cs ic : String)
    (hkeys : ∀ x ∈ e.dfs none none, isValidKey x.2.2 = true) :
    dfs_loop ⟨cs, ic, []⟩ (e.dfs none none) =
      .ok ((route_expression ⟨cs, ic, []⟩ e).1,
           ⟨cs, ic, (e.dfs none none).map (fun x => x.1)⟩,
           (route_expression ⟨cs, ic, []⟩ e).2) := by
  obtain ⟨rest, hrest⟩ := dfs_head e none none
  have hknone : isValidKey none = true := by decide
  have hskip : _skip_node ⟨cs, ic, []⟩ e = false := by
    simp [_skip_node]
  have hkeys' : ∀ x ∈ rest, isValidKey x.2.2 = true := by
    intro x hx
    exact hkeys x (by rw [hrest]; exact List.mem_cons_of_mem _ hx)
  have hmem' : ∀ x ∈ rest,
      x.1 ∈ ((e, none, none) :: rest : List DfsEntry).map (fun y => y.1) := by
    intro x hx
    exact List.mem_cons_of_mem _ (List.mem_map_of_mem _ hx)
  have htl := dfs_loop_skip_all rest
      ⟨cs, ic, ((e, none, none) :: rest : List DfsEntry).map (fun y => y.1)⟩
      hkeys' hmem'
  rw [hrest]
  simp only [dfs_loop, hknone, if_true, visit_expression, hskip, Bool.false_eq_true,
    if_false]
  simp only [List.nil_append]
  rw [hrest, htl]
  simp

/-- When a `Select` node is routed, `_format_select` formats it and no
warning is logged. -/
theorem route_expression_select (v : ExpressionVisitor) (e : Expr)
    (h : e.kind = "Select") :
    route_expression v e = (_format_select e v.col_sep v.indent_chars, []) := by
  simp [route_expression, h]

/-- When a non-`Select` node is routed, its own `sql()` text is used and one
fallback warning is logged. -/
theorem route_expression_fallback (v : ExpressionVisitor) (e : Expr)
    (h : e.kind ≠ "Select") :
    route_expression v e = (e.render, [fallbackWarning e]) := by
  simp [route_expression, h]

/-- The driver loop fails with the key error of the first entry whose raw key
`ExpressionKey` rejects. -/
theorem dfs_loop_error_first (l : List DfsEntry) (v : ExpressionVisitor)
    (x : DfsEntry)
    (h : l.find? (fun y => !isValidKey y.2.2) = some x) :
    dfs_loop v l = .error (keyErrorMsg x.2.2) := by
  induction l generalizing v with
  | nil => simp [List.find?] at h
  | cons hd tl ih =>
    obtain ⟨n, p, k⟩ := hd
    by_cases hk : isValidKey k = true
    · simp only [List.find?, hk, Bool.not_true] at h
      rcases hv : visit_expression v n with ⟨s, v', w⟩
      simp [dfs_loop, hk, hv, ih v' h]
    · have hk' : isValidKey k = false := by
        revert hk
        cases isValidKey k <;> simp
      simp only [List.find?, hk', Bool.not_false] at h
      cases h
      simp [dfs_loop, hk']

/-- The driver loop fails whenever some entry carries a rejected raw key. -/
theorem dfs_loop_error_ex (l : List DfsEntry) (v : ExpressionVisitor)
    (h : ∃ x ∈ l, isValidKey x.2.2 = false) :
    ∃ m, dfs_loop v l = .error m := by
  obtain ⟨x, hx, hbad⟩ := h
  have hfind : (l.find? (fun y => !isValidKey y.2.2)).isSome := by
    rw [List.find?_isSome]
    exact ⟨x, hx, by simp [hbad]⟩
  obtain ⟨y, hy⟩ := Option.isSome_iff_exists.mp hfind
  exact ⟨_, dfs_loop_error_first l v y hy⟩

/-! ### Statement- and driver-level lemmas -/

/-- A driver-loop failure propagates out of the statement's formatting. -/
theorem format_one_statement_error_of_loop (parse : String → List (Option Expr))
    (e : Expr) (m : String)
    (h : dfs_loop ⟨col_sep_at 0, indent_chars_at 0, []⟩ (e.dfs none none) = .error m) :
    format_one_statement parse e = .error m := by
  simp [format_one_statement, h]

/-- Destructing a successful statement format: the dfs loop succeeded, the
fragment is the loop's text plus the statement ending, and the round-trip
check certified that the fragment re-parses to exactly the original AST. -/
theorem format_one_statement_ok_elim (parse : String → List (Option Expr))
    (e : Expr) (f : String) (w : List String)
    (h : format_one_statement parse e = .ok (f, w)) :
    ∃ txt v, dfs_loop ⟨col_sep_at 0, indent_chars_at 0, []⟩ (e.dfs none none)
        = .ok (txt, v, w)
      ∧ f = txt ++ expression_ending ∧ parse f = [some e] := by
  rcases hdl : dfs_loop ⟨col_sep_at 0, indent_chars_at 0, []⟩ (e.dfs none none) with
    m | ⟨txt, v, w'⟩
  · simp [format_one_statement, hdl] at h
  · simp only [format_one_statement, hdl] at h
    rcases hp : parse (txt ++ expression_ending) with _ | ⟨x, _ | ⟨y, tail⟩⟩ <;>
      simp only [hp] at h
    · simp at h
    · by_cases hx : some e = x
      · simp only [if_pos hx, Except.ok.injEq, Prod.mk.injEq] at h
        obtain ⟨hf, hw⟩ := h
        subst hf
        subst hw
        exact ⟨txt, v, rfl, rfl, by rw [hp, ← hx]⟩
      · simp [if_neg hx] at h
    · simp at h

/-- Building a successful statement format from its pieces. -/
theorem format_one_statement_ok_intro (parse : String → List (Option Expr))
    (e : Expr) (txt : String) (v : ExpressionVisitor) (w : List String)
    (hdl : dfs_loop ⟨col_sep_at 0, indent_chars_at 0, []⟩ (e.dfs none none)
        = .ok (txt, v, w))
    (hp : parse (txt ++ expression_ending) = [some e]) :
    format_one_statement parse e = .ok (txt ++ expression_ending, w) := by
  simp [format_one_statement, hdl, hp]

/-- A failing statement anywhere in the list fails the whole driver run. -/
theorem format_statements_error_of_mem (parse : String → List (Option Expr))
    (l : List (Option Expr)) (e : Expr) (m : String)
    (hmem : some e ∈ l) (herr : format_one_statement parse e = .error m) :
    ∃ m', format_statements parse l = .error m' := by
  induction l with
  | nil => cases hmem
  | cons hd tl ih =>
    rcases List.mem_cons.mp hmem with heq | htl
    · rw [← heq]
      simp [format_statements, herr]
    · cases hd with
      | none => simpa [format_statements] using ih htl
      | some e' =>
        rcases hfos : format_one_statement parse e' with m'' | ⟨frag, w⟩
        · exact ⟨m'', by simp [format_statements, hfos]⟩
        · obtain ⟨m', hm'⟩ := ih htl
          exact ⟨m', by simp [format_statements, hfos, hm']⟩

/-- Every statement of a successful driver run was itself formatted
successfully. -/
theorem format_statements_ok_mem (parse : String → List (Option Expr))
    (l : List (Option Expr)) (frags : List String)
    (h : format_statements parse l = .ok frags) :
    ∀ e, some e ∈ l → ∃ f w, format_one_statement parse e = .ok (f, w) := by
  induction l generalizing frags with
  | nil => intro e he; cases he
  | cons hd tl ih =>
    intro e he
    rcases List.mem_cons.mp he with heq | htl
    · rw [← heq] at h
      rcases hfos : format_one_statement parse e with m | ⟨frag, w⟩
      · rw [format_statements, hfos] at h
        exact absurd h (by simp)
      · exact ⟨frag, w, rfl⟩
    · cases hd with
      | none =>
        rw [format_statements] at h
        exact ih frags h e htl
      | some e' =>
        rcases hfos : format_one_statement parse e' with m | ⟨frag, w⟩
        · rw [format_statements, hfos] at h
          exact absurd h (by simp)
        · rw [format_statements, hfos] at h
          rcases hfs : format_statements parse tl with m' | frags'
          · rw [hfs] at h
            exact absurd h (by simp)
          · exact ih frags' hfs e htl

/-- Structure of a successful driver run: the fragments line up one-to-one,
in order, with the non-`None` parsed statements, and each fragment is its
statement's loop text terminated by `expression_ending`. -/
theorem format_statements_ok_structure (parse : String → List (Option Expr))
    (l : List (Option Expr)) (frags : List String)
    (h : format_statements parse l = .ok frags) :
    List.Forall₂
        (fun e f => ∃ t w, format_one_statement parse e = .ok (f, w)
          ∧ f = t ++ expression_ending)
        (l.filterMap id) frags := by
  induction l generalizing frags with
  | nil =>
    cases h
    exact List.Forall₂.nil
  | cons hd tl ih =>
    cases hd with
    | none =>
      rw [format_statements] at h
      simpa using ih frags h
    | some e =>
      rcases hfos : format_one_statement parse e with m | ⟨frag, w⟩
      · rw [format_statements, hfos] at h
        exact absurd h (by simp)
      · rw [format_statements, hfos] at h
        rcases hfs : format_statements parse tl with m' | frags'
        · rw [hfs] at h
          exact absurd h (by simp)
        · rw [hfs] at h
          cases h
          obtain ⟨txt, v, _, hfrag, _⟩ :=
            format_one_statement_ok_elim parse e frag w hfos
          exact List.Forall₂.cons ⟨txt, w, hfos, hfrag⟩ (by simpa using ih frags' hfs)

/-- Destructing a successful `format_sql` run into the fragment list. -/
theorem format_sql_ok_elim (parse : String → List (Option Expr)) (s out : String)
    (h : format_sql parse s = .ok out) :
    ∃ frags, format_statements parse (parse s) = .ok frags
      ∧ out = String.join frags ++ "\n" := by
  unfold format_sql at h
  rcases hfs : format_statements parse (parse s) with m | frags
  · rw [hfs] at h
    exact absurd h (by simp)
  · rw [hfs] at h
    cases h
    exact ⟨frags, rfl, rfl⟩

/-- A driver failure is a `format_sql` failure. -/
theorem format_sql_error_of (parse : String → List (Option Expr)) (s m : String)
    (h : format_statements parse (parse s) = .error m) :
    format_sql parse s = .error m := by
  simp [format_sql, h]

theorem intercalate_one (s a : String) : String.intercalate s [a] = a := by
  simp [String.intercalate, String.intercalate.go]

theorem join_append_one (l : List String) (a : String) :
    String.join (l ++ [a]) = String.join l ++ a := by
  simp [String.join, List.foldl_append]

/-- Every fragment of a successful driver run ends in the statement
terminator. -/
theorem format_statements_frag_shape (parse : String → List (Option Expr))
    (l : List (Option Expr)) (frags : List String)
    (h : format_statements parse l = .ok frags) :
    ∀ f ∈ frags, ∃ t, f = t ++ expression_ending := by
  induction l generalizing frags with
  | nil =>
    cases h
    intro f hf
    cases hf
  | cons hd tl ih =>
    cases hd with
    | none =>
      rw [format_statements] at h
      exact ih frags h
    | some e =>
      rcases hfos : format_one_statement parse e with m | ⟨frag, w⟩
      · rw [format_statements, hfos] at h
        exact absurd h (by simp)
      · rw [format_statements, hfos] at h
        rcases hfs : format_statements parse tl with m' | frags'
        · rw [hfs] at h
          exact absurd h (by simp)
        · rw [hfs] at h
          cases h
          intro f hf
          rcases List.mem_cons.mp hf with heq | htl'
          · obtain ⟨txt, v, _, hfrag, _⟩ :=
              format_one_statement_ok_elim parse e frag w hfos
            exact ⟨txt, heq.trans hfrag⟩
          · exact ih frags' hfs f htl'

/-! ### The claims -/

/-- **C1** (code bug).  The spec requires a `Select` carrying CTEs to render a
`WITH <alias> AS (...)` block before the main body, but `_format_select` has
no handling for the `with` arg at all: on the AST of
`with c as (select x from y) select * from c` it emits only the outer select
(`SELECT *\nFROM c`, no `WITH` anywhere), and `format_sql`'s own round-trip
verification then detects the dropped clause and fails with
`AST has changed post formatting` instead of returning the block the spec
promises. -/
theorem cte_select_drops_with_and_fails_roundtrip :
    _format_select astCte (col_sep_at 0) (indent_chars_at 0) = "SELECT *\nFROM c"
      ∧ format_sql parse_model "with c as (select x from y) select * from c"
          = .error "AST has changed post formatting" :=
  ⟨rfl, rfl⟩

/-- **C2** (confirmed).  After formatting a statement and appending the
terminator the fragment is re-parsed: a statement count other than one is a
fatal error, a re-parsed AST different from the original is a fatal error,
and whenever `format_sql` returns a string every formatted statement's
fragment re-parses to exactly the original AST. -/
theorem roundtrip_verification :
    (∀ (parse : String → List (Option Expr)) (e : Expr) (txt : String)
        (v : ExpressionVisitor) (w : List String),
      dfs_loop ⟨col_sep_at 0, indent_chars_at 0, []⟩ (e.dfs none none)
          = .ok (txt, v, w) →
      (parse (txt ++ expression_ending)).length ≠ 1 →
      format_one_statement parse e
        = .error "Received multiple statements from parsing formatted AST")
    ∧ (∀ (parse : String → List (Option Expr)) (e : Expr) (txt : String)
        (v : ExpressionVisitor) (w : List String) (x : Option Expr),
      dfs_loop ⟨col_sep_at 0, indent_chars_at 0, []⟩ (e.dfs none none)
          = .ok (txt, v, w) →
      parse (txt ++ expression_ending) = [x] →
      some e ≠ x →
      format_one_statement parse e = .error "AST has changed post formatting")
    ∧ (∀ (parse : String → List (Option Expr)) (s out : String),
      format_sql parse s = .ok out →
      ∀ e, some e ∈ parse s →
        ∃ f w, format_one_statement parse e = .ok (f, w) ∧ parse f = [some e]) := by
  refine ⟨?_, ?_, ?_⟩
  · intro parse e txt v w hdl hlen
    simp only [format_one_statement, hdl]
    rcases hp : parse (txt ++ expression_ending) with _ | ⟨x, _ | ⟨y, t⟩⟩ <;>
      simp only [hp]
    exact absurd (by simp [hp]) hlen
  · intro parse e txt v w x hdl hp hne
    simp only [format_one_statement, hdl, hp]
    rw [if_neg hne]
  · intro parse s out hok e hmem
    obtain ⟨frags, hfs, _⟩ := format_sql_ok_elim parse s out hok
    obtain ⟨f, w, hfos⟩ := format_statements_ok_mem parse (parse s) frags hfs e hmem
    obtain ⟨txt, v, _, _, hpf⟩ := format_one_statement_ok_elim parse e f w hfos
    exact ⟨f, w, hfos, hpf⟩

theorem roundtrip_verification_witness :
    ∃ f w, format_one_statement parse_model astAB = .ok (f, w)
      ∧ parse_model f = [some astAB] :=
  roundtrip_verification.2.2 parse_model "select a, b from t"
    "SELECT\n    a\n    , b\nFROM t\n;\n" rfl astAB (by decide)

/-- **C3** (confirmed).  Whenever some parsed statement's depth-first walk
reaches a node under an arg key outside the `ExpressionKey` set (e.g. the
`where` arg of a `SELECT ... WHERE` statement), `format_sql` fails instead of
producing output, and when the offending statement is first the error names
the first invalid key. -/
theorem invalid_key_raises :
    (∀ (parse : String → List (Option Expr)) (s : String),
      (∃ e, some e ∈ parse s
        ∧ ∃ x ∈ e.dfs none none, isValidKey x.2.2 = false) →
      ∃ m, format_sql parse s = .error m)
    ∧ (∀ (parse : String → List (Option Expr)) (s : String) (e : Expr)
        (rest : List (Option Expr)) (x : DfsEntry),
      parse s = some e :: rest →
      (e.dfs none none).find? (fun y => !isValidKey y.2.2) = some x →
      format_sql parse s = .error (keyErrorMsg x.2.2)) := by
  constructor
  · intro parse s ⟨e, hmem, hbad⟩
    obtain ⟨m, hdl⟩ :=
      dfs_loop_error_ex _ ⟨col_sep_at 0, indent_chars_at 0, []⟩ hbad
    obtain ⟨m', hm'⟩ := format_statements_error_of_mem parse (parse s) e m hmem
      (format_one_statement_error_of_loop parse e m hdl)
    exact ⟨m', format_sql_error_of parse s m' hm'⟩
  · intro parse s e rest x hps hfind
    have hfos := format_one_statement_error_of_loop parse e _
      (dfs_loop_error_first _ ⟨col_sep_at 0, indent_chars_at 0, []⟩ x hfind)
    apply format_sql_error_of
    rw [hps]
    simp [format_statements, hfos]

theorem invalid_key_raises_witness :
    format_sql parse_model "select a from t where a = 1"
      = .error "where is not a valid ExpressionKey" :=
  invalid_key_raises.2 parse_model "select a from t where a = 1" astWhere []
    (whereA, some astWhere, some "where") rfl (by decide)

/-- **C4** (confirmed).  A `Select` with at least two projections emits
`SELECT`, a newline, the first projection behind the indent, and each further
projection on its own line beginning (after the indent) with `, `; the input
`select a, b from t` formats to exactly `SELECT\n    a\n    , b\nFROM t\n;\n`. -/
theorem multi_column_layout :
    (∀ (e : Expr) (ind : String), 2 ≤ e.selects.length →
      _format_select e ("\n" ++ ind ++ ", ") ind
        = ("SELECT\n" ++ ind
            ++ String.intercalate ("\n" ++ ind ++ ", ") (e.selects.map Expr.render))
          ++ fromPart e ++ joinsPart e)
    ∧ format_sql parse_model "select a, b from t"
        = .ok "SELECT\n    a\n    , b\nFROM t\n;\n" := by
  constructor
  · intro e ind hlen
    have h1 : ¬ e.named_selects.length = 1 := by
      simp only [Expr.named_selects, List.length_map]
      omega
    have h2 : 1 < e.named_selects.length := by
      simp only [Expr.named_selects, List.length_map]
      omega
    unfold _format_select selectColsPart
    rw [if_neg h1, if_pos h2, String.append_empty,
      ← String.append_assoc "SELECT" "\n" ind]
    rfl
  · rfl

theorem multi_column_layout_witness :
    2 ≤ astAB.selects.length
      ∧ _format_select astAB ("\n" ++ "    " ++ ", ") "    "
          = ("SELECT\n" ++ "    "
              ++ String.intercalate ("\n" ++ "    " ++ ", ")
                  (astAB.selects.map Expr.render))
            ++ fromPart astAB ++ joinsPart astAB :=
  ⟨by decide, multi_column_layout.1 astAB "    " (by decide)⟩

/-- **C5** (confirmed).  A `Select` with exactly one projection emits
`SELECT`, one space, and the column's own text, with no newline in between;
the input `select a from t` formats to exactly `SELECT a\nFROM t\n;\n`. -/
theorem single_column_layout :
    (∀ (e c : Expr) (col_sep ind : String), e.selects = [c] →
      _format_select e col_sep ind
        = ("SELECT " ++ c.render) ++ fromPart e ++ joinsPart e)
    ∧ format_sql parse_model "select a from t" = .ok "SELECT a\nFROM t\n;\n" := by
  constructor
  · intro e c col_sep ind hsel
    have h1 : e.named_selects.length = 1 := by
      simp [Expr.named_selects, hsel]
    have h2 : ¬ 1 < e.named_selects.length := by
      simp [Expr.named_selects, hsel]
    unfold _format_select selectColsPart
    rw [if_pos h1, if_neg h2, String.append_empty, hsel]
    simp only [List.map_cons, List.map_nil, intercalate_one]
    rfl
  · rfl

theorem single_column_layout_witness :
    astA.selects = [columnE "a"]
      ∧ _format_select astA (col_sep_at 0) (indent_chars_at 0)
          = ("SELECT " ++ (columnE "a").render) ++ fromPart astA ++ joinsPart astA :=
  ⟨rfl, single_column_layout.1 astA (columnE "a") (col_sep_at 0) (indent_chars_at 0) rfl⟩

/-- **C6 counterexample**.  The claim says a non-join-shaped entry in a
`Select`'s `joins` sequence makes the formatter raise.  It does not:
`check_all_of_type` failing merely skips the whole join block, so on
`astBadJoin` (whose `joins` holds the literal `1`) `_format_select` returns
normally, with output identical to the same select without any `joins` arg
(`astA`) — the entry is silently dropped, contradicting the claimed raise. -/
theorem non_join_entry_silently_skipped :
    _format_select astBadJoin (col_sep_at 0) (indent_chars_at 0) = "SELECT a\nFROM t"
      ∧ _format_select astBadJoin (col_sep_at 0) (indent_chars_at 0)
          = _format_select astA (col_sep_at 0) (indent_chars_at 0) :=
  ⟨rfl, rfl⟩

/-- **C6 amended** (corrected).  When the `joins` sequence contains a
non-join-shaped entry, `_format_select` emits no join block at all (no error
is raised; the output equals the select-plus-`FROM` text alone); when every
entry is join-shaped, it emits a newline then one join per line, each join's
own rendered text verbatim, lines joined by `\n`. -/
theorem joins_block_behavior :
    (∀ (e : Expr) (js : List Expr) (col_sep ind : String),
      e.args.get "joins" = some (.many js) →
      check_all_of_type js "Join" = false →
      _format_select e col_sep ind = selectColsPart e col_sep ind ++ fromPart e)
    ∧ (∀ (e : Expr) (js : List Expr) (col_sep ind : String),
      e.args.get "joins" = some (.many js) →
      check_all_of_type js "Join" = true →
      _format_select e col_sep ind
        = selectColsPart e col_sep ind ++ fromPart e
          ++ ("\n" ++ String.intercalate "\n" (js.map Expr.render))) := by
  constructor
  · intro e js col_sep ind hjs hchk
    simp [_format_select, joinsPart, hjs, hchk, String.append_empty]
  · intro e js col_sep ind hjs hchk
    simp [_format_select, joinsPart, hjs, hchk]

theorem joins_block_behavior_witness :
    _format_select astBadJoin (col_sep_at 0) (indent_chars_at 0)
        = selectColsPart astBadJoin (col_sep_at 0) (indent_chars_at 0)
          ++ fromPart astBadJoin
      ∧ _format_select astJoin (col_sep_at 0) (indent_chars_at 0)
          = selectColsPart astJoin (col_sep_at 0) (indent_chars_at 0)
            ++ fromPart astJoin
            ++ ("\n" ++ String.intercalate "\n" ([joinU].map Expr.render)) :=
  ⟨joins_block_behavior.1 astBadJoin [litOne] (col_sep_at 0) (indent_chars_at 0) rfl rfl,
   joins_block_behavior.2 astJoin [joinU] (col_sep_at 0) (indent_chars_at 0) rfl rfl⟩

/-- **C7** (confirmed).  A statement whose kind is not `Select` is not
dropped: the visitor routes it through the fallback branch, so the
statement's text is the node's own library rendering (`Expr.render`), one
fallback warning is emitted for it, and the statement formats successfully
once its fragment re-parses to the same AST. -/
theorem fallback_renders_and_warns
    (parse : String → List (Option Expr)) (e : Expr)
    (hkind : e.kind ≠ "Select")
    (hkeys : ∀ x ∈ e.dfs none none, isValidKey x.2.2 = true)
    (hparse : parse (e.render ++ expression_ending) = [some e]) :
    format_one_statement parse e
      = .ok (e.render ++ expression_ending, [fallbackWarning e]) := by
  have hdl := dfs_loop_root e (col_sep_at 0) (indent_chars_at 0) hkeys
  rw [route_expression_fallback _ e hkind] at hdl
  exact format_one_statement_ok_intro parse e e.render _ [fallbackWarning e] hdl hparse

theorem fallback_renders_and_warns_witness :
    format_one_statement parse_model astIns
      = .ok ("INSERT INTO t VALUES (1)" ++ expression_ending,
             [fallbackWarning astIns]) :=
  fallback_renders_and_warns parse_model astIns (by decide) (by decide) rfl

/-- **C8** (confirmed).  A returned document is each formatted statement,
terminated by `\n;`, concatenated in the statements' original order (empty
parsed entries are skipped and contribute nothing), followed by exactly one
trailing newline: the document is the fragments' join plus `"\n"`, where the
join is empty or itself ends in the `\n;` terminator. -/
theorem output_assembly (parse : String → List (Option Expr)) (s out : String)
    (h : format_sql parse s = .ok out) :
    ∃ frags, format_statements parse (parse s) = .ok frags
      ∧ out = String.join frags ++ "\n"
      ∧ List.Forall₂
          (fun e f => ∃ t w, format_one_statement parse e = .ok (f, w)
            ∧ f = t ++ expression_ending)
          ((parse s).filterMap id) frags
      ∧ (frags = [] → out = "\n")
      ∧ (frags ≠ [] → ∃ u, out = u ++ expression_ending ++ "\n") := by
  obtain ⟨frags, hfs, hout⟩ := format_sql_ok_elim parse s out h
  refine ⟨frags, hfs, hout,
    format_statements_ok_structure parse (parse s) frags hfs, ?_, ?_⟩
  · intro hnil
    subst hnil
    simpa [String.join] using hout
  · intro hne
    obtain ⟨t, ht⟩ := format_statements_frag_shape parse (parse s) frags hfs
      (frags.getLast hne) (List.getLast_mem hne)
    have hsplit : frags.dropLast ++ [frags.getLast hne] = frags :=
      List.dropLast_append_getLast hne
    have hjoin : String.join frags
        = String.join frags.dropLast ++ frags.getLast hne := by
      conv_lhs => rw [← hsplit]
      exact join_append_one _ _
    refine ⟨String.join frags.dropLast ++ t, ?_⟩
    rw [hout, hjoin, ht, ← String.append_assoc]

theorem output_assembly_witness :
    ∃ frags, format_statements parse_model (parse_model "select a from t;;")
        = .ok frags
      ∧ "SELECT a\nFROM t\n;\n" = String.join frags ++ "\n"
      ∧ List.Forall₂
          (fun e f => ∃ t w, format_one_statement parse_model e = .ok (f, w)
            ∧ f = t ++ expression_ending)
          ((parse_model "select a from t;;").filterMap id) frags
      ∧ (frags = [] → "SELECT a\nFROM t\n;\n" = "\n")
      ∧ (frags ≠ [] →
          ∃ u, "SELECT a\nFROM t\n;\n" = u ++ expression_ending ++ "\n") :=
  output_assembly parse_model "select a from t;;" "SELECT a\nFROM t\n;\n" rfl

/-- **C9** (confirmed).  `format_sql` is idempotent on a supported statement:
if the document parses to one statement and formats successfully, then
feeding the output back, stripped of the appended terminator (the final
`\n;\n`, i.e. `out.dropRight 3`), formats to the very same output — the only
property of the external parser this needs is that the stripped canonical
text re-parses to the same single AST, which the round-trip verifier already
certified for the fragment itself. -/
theorem format_idempotent (parse : String → List (Option Expr)) (s : String)
    (e : Expr) (out : String)
    (hs : parse s = [some e])
    (hok : format_sql parse s = .ok out)
    (hre : parse (out.dropRight 3) = [some e]) :
    format_sql parse (out.dropRight 3) = .ok out := by
  obtain ⟨frags, hfs, hout⟩ := format_sql_ok_elim parse s out hok
  rw [hs] at hfs
  rcases hfos : format_one_statement parse e with m | ⟨f, w⟩
  · simp [format_statements, hfos] at hfs
  · simp only [format_statements, hfos] at hfs
    obtain rfl : [f] = frags := by simpa using hfs
    have hout' : out = f ++ "\n" := by simpa [String.join] using hout
    have hfs' : format_statements parse (parse (out.dropRight 3)) = .ok [f] := by
      rw [hre]
      simp [format_statements, hfos]
    simp only [format_sql, hfs']
    rw [hout']
    simp [String.join]

theorem format_idempotent_witness :
    format_sql parse_model ("SELECT a\nFROM t\n;\n".dropRight 3)
      = .ok "SELECT a\nFROM t\n;\n" :=
  format_idempotent parse_model "select a from t" astA "SELECT a\nFROM t\n;\n"
    rfl rfl (by decide)

/-- **C10** (confirmed).  For a top-level `Select` with only accepted arg
keys, the driver's depth-first loop formats the statement exactly once: the
root is routed through `_format_select`, every node of the statement
(descendants included) is recorded as visited so later entries contribute the
empty string and no warnings, and the accumulated text equals
`_format_select` applied directly to the root with the driver's separator and
indent. -/
theorem dfs_loop_refines_format_select (e : Expr) (cs ic : String)
    (hkind : e.kind = "Select")
    (hkeys : ∀ x ∈ e.dfs none none, isValidKey x.2.2 = true) :
    dfs_loop ⟨cs, ic, []⟩ (e.dfs none none)
      = .ok (_format_select e cs ic,
             ⟨cs, ic, (e.dfs none none).map (fun x => x.1)⟩, []) := by
  have h := dfs_loop_root e cs ic hkeys
  rw [route_expression_select _ e hkind] at h
  exact h

theorem dfs_loop_refines_format_select_witness :
    dfs_loop ⟨col_sep_at 0, indent_chars_at 0, []⟩ (astA.dfs none none)
      = .ok ("SELECT a\nFROM t",
             ⟨col_sep_at 0, indent_chars_at 0,
              (astA.dfs none none).map (fun x => x.1)⟩, []) := by
  rw [dfs_loop_refines_format_select astA (col_sep_at 0) (indent_chars_at 0)
    rfl (by decide)]
  rfl
